import Mathlib

/-! Shallow embedding of the Jira integration service core (config.py and
jira_service.py): retry executor, response cache, issue-response
interpretation, ADF text extraction, attachment descriptors and the
attachment byte stream, with proofs of the specified properties. -/

/-- JSON-like values as handled by the Python service: dicts, lists, strings,
numbers, booleans and null. Objects are association lists of string keys
(Python dicts have unique keys; lookup takes the first binding). -/
inductive JVal : Type where
  | jnull : JVal
  | jbool : Bool → JVal
  | jnum : Int → JVal
  | jstr : String → JVal
  | jarr : List JVal → JVal
  | jobj : List (String × JVal) → JVal

/-- Python dict.get(key): the first binding for the key, if any. -/
def jGet (fields : List (String × JVal)) (key : String) : Option JVal :=
  match fields with
  | [] => none
  | (k, v) :: rest => if k = key then some v else jGet rest key

/-- Python truthiness of a JSON value (None, False, 0, empty string, empty
list and empty dict are falsy). -/
def jTruthy : JVal → Bool
  | .jnull => false
  | .jbool b => b
  | .jnum n => n != 0
  | .jstr s => s != ""
  | .jarr l => !l.isEmpty
  | .jobj l => !l.isEmpty

/-- Python str.strip() on the underlying character list: remove leading and
trailing whitespace characters. -/
def stripChars (l : List Char) : List Char :=
  ((l.dropWhile Char.isWhitespace).reverse.dropWhile Char.isWhitespace).reverse

/-- Python str.strip(). -/
def pyStrip (s : String) : String := String.mk (stripChars s.data)

/-- Python str.upper() (character-wise upper-casing, as used on issue keys). -/
def pyUpper (s : String) : String := String.mk (s.data.map Char.toUpper)

/-- Settings (config.py). Durations in seconds are modelled as rationals. -/
structure Settings where
  jira_base_url : String
  jira_email : String
  jira_api_token : String
  request_connect_timeout_seconds : ℚ
  request_read_timeout_seconds : ℚ
  retry_max_attempts : Nat
  retry_backoff_seconds : ℚ
  enable_response_cache : Bool
  cache_ttl_seconds : ℚ
  log_level : String

/-- Outcome of one requests.get call, as seen by _request_with_retry:
a requests.exceptions.Timeout, another RequestException, or a response
with a status code. -/
inductive AttemptOutcome where
  | timeout : AttemptOutcome
  | netError : AttemptOutcome
  | response : Nat → AttemptOutcome
deriving DecidableEq

/-- Overall outcome of _request_with_retry: a returned response,
JiraTimeoutError, JiraNetworkError, or the trailing
JiraError("Unexpected Jira retry state") after the loop. -/
inductive RetryOutcome where
  | returned : Nat → RetryOutcome
  | timeoutErr : RetryOutcome
  | networkErr : RetryOutcome
  | unexpectedState : RetryOutcome
deriving DecidableEq

/-- Observable side effects of the retry loop, in program order:
a requests.get call, a response.close(), a time.sleep(seconds). -/
inductive RetryEvent where
  | request : Nat → RetryEvent
  | close : Nat → RetryEvent
  | sleep : ℚ → RetryEvent
deriving DecidableEq

/-- The for-loop body of JiraService._request_with_retry, lines 187-221:
attempt is the 1-indexed loop variable, remaining the number of loop
iterations still available (for attempt in range(1, attempts + 1)).
A Timeout or RequestException from requests.get raises immediately; a
response returns if its status is < 500 or this is the last attempt;
otherwise the response is closed, the loop sleeps
retry_backoff_seconds * 2 ** (attempt - 1), and the next iteration runs.
Falling off the loop raises JiraError("Unexpected Jira retry state"). -/
def retryFrom (s : Settings) (upstream : Nat → AttemptOutcome)
    (attempt remaining : Nat) : RetryOutcome × List RetryEvent :=
  match remaining with
  | 0 => (.unexpectedState, [])
  | r + 1 =>
    match upstream attempt with
    | .timeout => (.timeoutErr, [.request attempt])
    | .netError => (.networkErr, [.request attempt])
    | .response st =>
      if st < 500 ∨ attempt = s.retry_max_attempts then
        (.returned st, [.request attempt])
      else
        let rest := retryFrom s upstream (attempt + 1) r
        (rest.1, .request attempt :: .close attempt ::
          .sleep (s.retry_backoff_seconds * 2 ^ (attempt - 1)) :: rest.2)

/-- JiraService._request_with_retry: run the loop from attempt 1 with
retry_max_attempts iterations available. -/
def requestWithRetry (s : Settings) (upstream : Nat → AttemptOutcome) :
    RetryOutcome × List RetryEvent :=
  retryFrom s upstream 1 s.retry_max_attempts

def isRequestEvent : RetryEvent → Bool
  | .request _ => true
  | _ => false

/-- Number of requests.get calls recorded in a trace. -/
def requestCount (events : List RetryEvent) : Nat :=
  (events.filter isRequestEvent).length

/-- Durations of the time.sleep calls recorded in a trace, in order. -/
def sleepsOf (events : List RetryEvent) : List ℚ :=
  events.filterMap (fun e => match e with | .sleep q => some q | _ => none)

/-- Events of one retried (non-terminal) attempt: its request, the close of
its 5xx response, and the backoff sleep. -/
def retriedTriple (s : Settings) (n : Nat) : List RetryEvent :=
  [.request n, .close n, .sleep (s.retry_backoff_seconds * 2 ^ (n - 1))]

/-- Trace of a run that retries attempts a..j-1 and stops at attempt j. -/
def retryTrace (s : Settings) (a j : Nat) : List RetryEvent :=
  (List.range' a (j - a)).flatMap (retriedTriple s) ++ [.request j]

/-- The attempt outcome at which the loop stops at attempt j. -/
def stops (s : Settings) (o : AttemptOutcome) (j : Nat) : Prop :=
  match o with
  | .timeout => True
  | .netError => True
  | .response st => st < 500 ∨ j = s.retry_max_attempts

/-- The loop outcome produced by a stopping attempt. -/
def stopOutcome : AttemptOutcome → RetryOutcome
  | .timeout => .timeoutErr
  | .netError => .networkErr
  | .response st => .returned st

/-- Settings as built in the tests: max 3 attempts, base backoff 0.5s. -/
def testSettings : Settings :=
  { jira_base_url := "https://example.atlassian.net"
    jira_email := "user@example.com"
    jira_api_token := "token"
    request_connect_timeout_seconds := 5
    request_read_timeout_seconds := 20
    retry_max_attempts := 3
    retry_backoff_seconds := 1/2
    enable_response_cache := true
    cache_ttl_seconds := 180
    log_level := "INFO" }

/-- Upstream statuses 502, 502, then 200 from the third call on. -/
def upTwo502 (i : Nat) : Nat := if 3 ≤ i then 200 else 502

/-- Upstream that times out on the second call, 502 otherwise. -/
def upTimeoutAt2 (i : Nat) : AttemptOutcome :=
  if i = 2 then .timeout else .response 502

/-- Failure kinds raised by the service: JiraNotFoundError,
JiraUnauthorizedError (carrying the upstream status code),
JiraTimeoutError, JiraNetworkError, and the generic JiraError. -/
inductive JiraFailure where
  | notFound : JiraFailure
  | unauthorized : Nat → JiraFailure
  | timeout : JiraFailure
  | networkUnreachable : JiraFailure
  | upstreamError : JiraFailure
deriving DecidableEq

/-- The in-memory issue cache self._issue_cache: normalized issue key to
(time.monotonic() at store, raw issue document). -/
def CacheMap : Type := String → Option (ℚ × JVal)

/-- The cache-read step of _get_issue_raw_cached (lines 75-80): with caching
enabled, return the stored document when an entry exists and the elapsed
monotonic time is strictly below cache_ttl_seconds; otherwise miss. -/
def cacheGet (s : Settings) (cache : CacheMap) (now : ℚ) (key : String) :
    Option JVal :=
  if s.enable_response_cache then
    match cache key with
    | some entry =>
      if now - entry.1 < s.cache_ttl_seconds then some entry.2 else none
    | none => none
  else none

/-- The cache-write step of _get_issue_raw_cached (lines 84-86): with caching
enabled, store (now, document) under the key; otherwise leave the cache
unchanged. -/
def cachePut (s : Settings) (cache : CacheMap) (now : ℚ) (key : String)
    (doc : JVal) : CacheMap :=
  if s.enable_response_cache then
    fun k => if k = key then some (now, doc) else cache k
  else cache

/-- JiraService._get_issue_raw_cached (lines 70-88): normalize the key with
strip() then upper(), raise JiraNotFoundError on an empty normalized key,
try the cache, on a miss call _fetch_issue_raw (the fetch argument) and
store a successful result. Returns the outcome, the cache after the call,
and the number of upstream fetch calls issued (0 or 1). now is the value
of time.monotonic() during the call. -/
def getIssueRawCached (s : Settings)
    (fetch : String → Except JiraFailure JVal)
    (cache : CacheMap) (now : ℚ) (issue_key : String) :
    Except JiraFailure JVal × CacheMap × Nat :=
  if pyUpper (pyStrip issue_key) = "" then (.error .notFound, cache, 0)
  else
    match cacheGet s cache now (pyUpper (pyStrip issue_key)) with
    | some doc => (.ok doc, cache, 0)
    | none =>
      match fetch (pyUpper (pyStrip issue_key)) with
      | .error e => (.error e, cache, 1)
      | .ok doc =>
        (.ok doc, cachePut s cache now (pyUpper (pyStrip issue_key)) doc, 1)

/-- A raw issue document as returned by the upstream API. -/
def docA : JVal := .jobj [("key", .jstr "ABC-1")]

def emptyCache : CacheMap := fun _ => none

def testSettingsNoCache : Settings :=
  { testSettings with enable_response_cache := false }

/-- The response interpretation of JiraService._fetch_issue_raw (lines
100-125): status 404 raises JiraNotFoundError; 401 or 403 raises
JiraUnauthorizedError carrying the status; any other status >= 400 raises
the generic JiraError; then response.json() runs, a ValueError raising
JiraError, otherwise the payload is returned. body models the result of
response.json(): none when the body is not valid JSON. -/
def interpretIssueResponse (status : Nat) (body : Option JVal) :
    Except JiraFailure JVal :=
  if status = 404 then .error .notFound
  else if status = 401 ∨ status = 403 then .error (.unauthorized status)
  else if 400 ≤ status then .error .upstreamError
  else
    match body with
    | none => .error .upstreamError
    | some payload => .ok payload

mutual
/-- The inner walk of _extract_adf_text (lines 304-313): a dict node
contributes its "text" value when that value is a string, then the walk
recurses into the node's "content" children; a list is walked element by
element; any other value contributes nothing. In Python the children come
from iterating node.get("content") or []; a str or dict there iterates to
non-dict non-list items which the walk skips, so only list children
contribute fragments. -/
def walkJ : JVal → List String
  | .jobj fields =>
    (match jGet fields "text" with
     | some (.jstr t) => [t]
     | _ => []) ++ walkFields fields
  | .jarr items => walkList items
  | _ => []

/-- Iteration over the first "content" binding of a dict node (dict.get
fused with the walk for structural recursion; walkFields_eq_jGet below
recovers the dict.get reading). -/
def walkFields : List (String × JVal) → List String
  | [] => []
  | (k, v) :: rest => if k = "content" then walkContentVal v else walkFields rest

/-- Walk of a node's "content" value: only a list is iterated into child
nodes. -/
def walkContentVal : JVal → List String
  | .jarr items => walkList items
  | _ => []

def walkList : List JVal → List String
  | [] => []
  | x :: xs => walkJ x ++ walkList xs
end

/-- The fragment list _extract_adf_text walks for a dict input:
walk(value.get("content") or []). -/
def adfFragments (fields : List (String × JVal)) : List String :=
  match jGet fields "content" with
  | some c => if jTruthy c then walkJ c else walkJ (.jarr [])
  | none => walkJ (.jarr [])

/-- Python " ".join(parts). -/
def joinSpace (parts : List String) : String :=
  String.mk (List.intercalate [' '] (parts.map String.data))

/-- JiraService._extract_adf_text (lines 296-318): a bare string input is
returned as-is; a non-dict input yields None; for a dict the walk collects
fragments from value["content"], each fragment is stripped, falsy or
whitespace-only fragments are dropped, the rest are joined with single
spaces, the join is stripped, and an empty result is returned as None. -/
def extract_adf_text (value : JVal) : Option String :=
  match value with
  | .jstr s => some s
  | .jobj fields =>
    let extracted := pyStrip (joinSpace
      (((adfFragments fields).filter
          (fun p => p != "" && pyStrip p != "")).map pyStrip))
    if extracted = "" then none else some extracted
  | _ => none

/-- The example tree of the spec:
content: [ text: "a", content: [ text: "b" ] ]. -/
def adfExampleTree : JVal :=
  .jobj [("content", .jarr
    [.jobj [("text", .jstr "a")],
     .jobj [("content", .jarr [.jobj [("text", .jstr "b")]])]])]

/-- A content tree holding only whitespace text. -/
def wsOnlyFields : List (String × JVal) :=
  [("content", .jarr [.jobj [("text", .jstr "  ")]])]

/-- One read from response.iter_content inside the streaming iterator of
_get_attachment_stream_sync: a chunk of bytes (an empty chunk is falsy and
is skipped by the `if chunk` guard), or an exception raised mid-read. -/
inductive ReadStep where
  | chunk : List Nat → ReadStep
  | readErr : ReadStep
deriving DecidableEq

/-- Events observable from the iterator of _get_attachment_stream_sync
(lines 163-169): a yielded chunk, or the response.close() run by the
try/finally. -/
inductive StreamEvent where
  | yielded : List Nat → StreamEvent
  | connClosed : StreamEvent
deriving DecidableEq

/-- The generator body of _get_attachment_stream_sync (lines 163-169) under
a consumer that pulls at most `limit` chunks (none = drains to
exhaustion). The loop walks the upstream reads, skipping falsy (empty)
chunks and yielding the rest; when the consumer stops early the generator
is closed (GeneratorExit), when the source raises the exception
propagates, and on every exit path the try/finally runs response.close().
-/
def runStream : List ReadStep → Option Nat → List StreamEvent
  | _, some 0 => [.connClosed]
  | [], _ => [.connClosed]
  | .readErr :: _, _ => [.connClosed]
  | .chunk d :: rest, lim =>
    if d = [] then runStream rest lim
    else .yielded d :: runStream rest (lim.map (fun n => n - 1))

/-- JiraAttachment (schemas.py): filename, size and mimeType are copied
from the raw attachment entry; download_url is the synthesized proxy
path. -/
structure JiraAttachment where
  filename : Option JVal
  size : Option JVal
  mimeType : Option JVal
  download_url : Option String

/-- Python str(x) as used in the f-string building the proxy path.
Attachment ids are strings or numbers in upstream data; a list or dict id
would interpolate as its repr and never occurs, modelled as "". -/
def pyStr : JVal → String
  | .jstr s => s
  | .jnum n => toString n
  | .jbool b => if b then "True" else "False"
  | .jnull => "None"
  | .jarr _ => ""
  | .jobj _ => ""

/-- The loop body of _extract_attachments (lines 280-293): the proxy
download path /jira/{issue_key}/attachments/{id} is synthesized only when
the entry's id is truthy. A non-dict entry would raise AttributeError in
Python and never occurs; it is modelled as an empty descriptor. -/
def attachmentDescriptor (issue_key : String) : JVal → JiraAttachment
  | .jobj a =>
    { filename := jGet a "filename"
      size := jGet a "size"
      mimeType := jGet a "mimeType"
      download_url :=
        match jGet a "id" with
        | some idv =>
          if jTruthy idv then
            some ("/jira/" ++ issue_key ++ "/attachments/" ++ pyStr idv)
          else none
        | none => none }
  | _ =>
    { filename := none
      size := none
      mimeType := none
      download_url := none }

/-- JiraService._extract_attachments (lines 274-294): iterate
fields.get("attachment") or [] and derive one descriptor per entry. -/
def extract_attachments (fields : List (String × JVal))
    (issue_key : String) : List JiraAttachment :=
  (match jGet fields "attachment" with
   | some (.jarr items) => items
   | _ => []).map (attachmentDescriptor issue_key)

/-- The attachment entry of the tests: id "10001" on issue ABC-123. -/
def testAttachment : List (String × JVal) :=
  [("id", .jstr "10001"), ("filename", .jstr "spec.pdf"),
   ("size", .jnum 123), ("mimeType", .jstr "application/pdf")]

theorem retryTrace_cons (s : Settings) (a j : Nat) (h : a < j) :
    retryTrace s a j = retriedTriple s a ++ retryTrace s (a + 1) j := by
  unfold retryTrace
  have hj : j - a = (j - (a + 1)) + 1 := by omega
  rw [hj, List.range'_succ, List.flatMap_cons, List.append_assoc]

theorem retryTrace_self (s : Settings) (a : Nat) :
    retryTrace s a a = [.request a] := by
  unfold retryTrace
  simp [Nat.sub_self]

theorem retryFrom_timeout (s : Settings) (up : Nat → AttemptOutcome)
    (a r : Nat) (h : up a = .timeout) :
    retryFrom s up a (r + 1) = (.timeoutErr, [.request a]) := by
  unfold retryFrom
  rw [h]

theorem retryFrom_netError (s : Settings) (up : Nat → AttemptOutcome)
    (a r : Nat) (h : up a = .netError) :
    retryFrom s up a (r + 1) = (.networkErr, [.request a]) := by
  unfold retryFrom
  rw [h]

theorem retryFrom_response (s : Settings) (up : Nat → AttemptOutcome)
    (a r st : Nat) (h : up a = .response st) :
    retryFrom s up a (r + 1) =
      if st < 500 ∨ a = s.retry_max_attempts then
        (.returned st, [.request a])
      else
        let rest := retryFrom s up (a + 1) r
        (rest.1, .request a :: .close a ::
          .sleep (s.retry_backoff_seconds * 2 ^ (a - 1)) :: rest.2) := by
  conv_lhs => unfold retryFrom
  rw [h]

/-- Characterization of the retry loop: if every attempt in [a, j) yields a
5xx response and attempt j stops the loop, the loop result is the stopping
attempt's outcome and the trace retries exactly the attempts in [a, j). -/
theorem retryFrom_stops (s : Settings) (up : Nat → AttemptOutcome) :
    ∀ r a j, a + r = s.retry_max_attempts + 1 → a ≤ j →
    j ≤ s.retry_max_attempts →
    (∀ i, a ≤ i → i < j → ∃ st, up i = .response st ∧ 500 ≤ st) →
    stops s (up j) j →
    retryFrom s up a r = (stopOutcome (up j), retryTrace s a j) := by
  intro r
  induction r with
  | zero => intro a j hsum haj hj _ _; omega
  | succ r ih =>
    intro a j hsum haj hj hpre hstop
    rcases Nat.eq_or_lt_of_le haj with heq | hlt
    · subst heq
      cases hup : up a with
      | timeout => rw [retryFrom_timeout s up a r hup, retryTrace_self]; rfl
      | netError => rw [retryFrom_netError s up a r hup, retryTrace_self]; rfl
      | response st =>
        rw [hup] at hstop
        have hstop2 : st < 500 ∨ a = s.retry_max_attempts := hstop
        rw [retryFrom_response s up a r st hup, if_pos hstop2, retryTrace_self]
        rfl
    · obtain ⟨st, hsta, hst5⟩ := hpre a (le_refl a) hlt
      have hne : ¬ (st < 500 ∨ a = s.retry_max_attempts) := by
        push_neg
        exact ⟨by omega, by omega⟩
      rw [retryFrom_response s up a r st hsta, if_neg hne]
      have hrest := ih (a + 1) j (by omega) (by omega) hj
        (fun i h1 h2 => hpre i (by omega) h2) hstop
      rw [retryTrace_cons s a j hlt]
      simp only [hrest, retriedTriple, List.cons_append, List.nil_append]

/-- A run from attempt 1 that stops at attempt j issues exactly j requests. -/
theorem requestCount_retryTrace (s : Settings) (j : Nat) (hj : 1 ≤ j) :
    requestCount (retryTrace s 1 j) = j := by
  unfold retryTrace requestCount
  rw [List.filter_append, List.length_append]
  have hbind : ∀ n a, (((List.range' a n).flatMap (retriedTriple s)).filter
      isRequestEvent).length = n := by
    intro n
    induction n with
    | zero => intro a; simp
    | succ m ihm =>
      intro a
      rw [List.range'_succ, List.flatMap_cons, List.filter_append,
        List.length_append, ihm]
      simp [retriedTriple, isRequestEvent]
      omega
  rw [hbind]
  simp [isRequestEvent]
  omega

/-- C1: the Retry-Executor retries only on status codes >= 500; it returns
the first response with status < 500 immediately, or the last attempt's
response even if it is a 5xx, and a run stopping at attempt j issues
exactly j requests. Instantiated below at max_attempts = 3 with statuses
[502, 502, 200] (three requests, 200 returned) and [502, 502, 502]
(three requests, the final 502 returned, no fourth attempt). -/
theorem retry_returns_first_sub500_or_last (s : Settings) (up : Nat → Nat)
    (j : Nat) (_hge : 1 ≤ s.retry_max_attempts) (_hle : s.retry_max_attempts ≤ 8)
    (hj1 : 1 ≤ j) (hjm : j ≤ s.retry_max_attempts)
    (hpre : ∀ i, 1 ≤ i → i < j → 500 ≤ up i)
    (hstop : up j < 500 ∨ j = s.retry_max_attempts) :
    requestWithRetry s (fun i => .response (up i)) =
      (.returned (up j), retryTrace s 1 j) ∧
    requestCount (retryTrace s 1 j) = j := by
  constructor
  · exact retryFrom_stops s (fun i => .response (up i)) s.retry_max_attempts
      1 j (by omega) hj1 hjm (fun i hi hij => ⟨up i, rfl, hpre i hi hij⟩) hstop
  · exact requestCount_retryTrace s j hj1

theorem retry_returns_first_sub500_or_last_witness :
    (requestWithRetry testSettings (fun i => .response (upTwo502 i)) =
       (.returned 200, retryTrace testSettings 1 3) ∧
     requestCount (retryTrace testSettings 1 3) = 3) ∧
    (requestWithRetry testSettings (fun _ => .response 502) =
       (.returned 502, retryTrace testSettings 1 3) ∧
     requestCount (retryTrace testSettings 1 3) = 3) := by
  constructor
  · exact retry_returns_first_sub500_or_last testSettings upTwo502 3
      (by decide) (by decide) (by decide) (by decide)
      (by intro i hi hij
          unfold upTwo502
          rw [if_neg (by omega : ¬ 3 ≤ i)]
          decide)
      (Or.inr rfl)
  · exact retry_returns_first_sub500_or_last testSettings (fun _ => 502) 3
      (by decide) (by decide) (by decide) (by decide)
      (by intro i hi hij; show (500 : Nat) ≤ 502; decide)
      (Or.inr rfl)

/-- C2: a connection-level timeout at any reached attempt k raises the
distinct Timeout failure immediately (exactly k requests, no retry), and
any other transport-level failure raises the distinct NetworkUnreachable
failure immediately; attempts before k were retried 5xx responses, the
only retried condition. -/
theorem retry_transport_failures_raise_immediately (s : Settings)
    (up : Nat → AttemptOutcome) (k : Nat)
    (hk1 : 1 ≤ k) (hkm : k ≤ s.retry_max_attempts)
    (hpre : ∀ i, 1 ≤ i → i < k → ∃ st, up i = .response st ∧ 500 ≤ st)
    (hfail : up k = .timeout ∨ up k = .netError) :
    requestWithRetry s up = (stopOutcome (up k), retryTrace s 1 k) ∧
    (up k = .timeout → stopOutcome (up k) = .timeoutErr) ∧
    (up k = .netError → stopOutcome (up k) = .networkErr) ∧
    requestCount (retryTrace s 1 k) = k := by
  refine ⟨?_, ?_, ?_, requestCount_retryTrace s k hk1⟩
  · apply retryFrom_stops s up s.retry_max_attempts 1 k (by omega) hk1 hkm hpre
    rcases hfail with h | h <;> rw [h] <;> exact trivial
  · intro h; rw [h]; rfl
  · intro h; rw [h]; rfl

theorem retry_transport_failures_raise_immediately_witness :
    (requestWithRetry testSettings upTimeoutAt2 =
       (stopOutcome (upTimeoutAt2 2), retryTrace testSettings 1 2) ∧
     (upTimeoutAt2 2 = .timeout → stopOutcome (upTimeoutAt2 2) = .timeoutErr) ∧
     (upTimeoutAt2 2 = .netError → stopOutcome (upTimeoutAt2 2) = .networkErr) ∧
     requestCount (retryTrace testSettings 1 2) = 2) ∧
    (requestWithRetry testSettings (fun _ => .netError) =
       (stopOutcome AttemptOutcome.netError, retryTrace testSettings 1 1) ∧
     (AttemptOutcome.netError = .timeout →
       stopOutcome AttemptOutcome.netError = .timeoutErr) ∧
     (AttemptOutcome.netError = .netError →
       stopOutcome AttemptOutcome.netError = .networkErr) ∧
     requestCount (retryTrace testSettings 1 1) = 1) := by
  constructor
  · exact retry_transport_failures_raise_immediately testSettings upTimeoutAt2 2
      (by decide) (by decide)
      (by intro i hi hij
          have : i = 1 := by omega
          subst this
          exact ⟨502, rfl, by omega⟩)
      (Or.inl rfl)
  · exact retry_transport_failures_raise_immediately testSettings
      (fun _ => .netError) 1 (by decide) (by decide)
      (by intro i hi hij; omega)
      (Or.inr rfl)

theorem sleepsOf_flatMap_triples (s : Settings) :
    ∀ m a, sleepsOf ((List.range' a m).flatMap (retriedTriple s)) =
      (List.range' a m).map (fun n => s.retry_backoff_seconds * 2 ^ (n - 1)) := by
  intro m
  induction m with
  | zero => intro a; rfl
  | succ m ihm =>
    intro a
    rw [List.range'_succ, List.flatMap_cons, List.map_cons]
    unfold sleepsOf
    rw [List.filterMap_append]
    unfold sleepsOf at ihm
    rw [ihm]
    rfl

theorem sleepsOf_retryTrace (s : Settings) (j : Nat) :
    sleepsOf (retryTrace s 1 j) =
      (List.range' 1 (j - 1)).map
        (fun n => s.retry_backoff_seconds * 2 ^ (n - 1)) := by
  unfold retryTrace sleepsOf
  rw [List.filterMap_append]
  have h := sleepsOf_flatMap_triples s (j - 1) 1
  unfold sleepsOf at h
  rw [h]
  simp

theorem closeSleep_infix_flatMap (s : Settings) :
    ∀ m a n, n ∈ List.range' a m →
      [RetryEvent.close n,
       RetryEvent.sleep (s.retry_backoff_seconds * 2 ^ (n - 1))] <:+:
        (List.range' a m).flatMap (retriedTriple s) := by
  intro m
  induction m with
  | zero => intro a n h; simp at h
  | succ m ihm =>
    intro a n h
    rw [List.range'_succ, List.flatMap_cons]
    rw [List.range'_succ, List.mem_cons] at h
    rcases h with heq | hmem
    · subst heq
      exact ⟨[RetryEvent.request n],
        (List.range' (n + 1) m).flatMap (retriedTriple s),
        by simp [retriedTriple]⟩
    · obtain ⟨u, v, huv⟩ := ihm (a + 1) n hmem
      refine ⟨retriedTriple s a ++ u, v, ?_⟩
      simp only [List.append_assoc] at huv ⊢
      rw [huv]

/-- C8: in a run that retries attempts 1..j-1 and stops at attempt j, the
recorded sleeps are base_backoff * 2^(n-1) for the retried attempts n in
order, and each retried attempt's response close immediately precedes its
backoff sleep in the event trace. -/
theorem retry_backoff_and_close_before_sleep (s : Settings)
    (up : Nat → AttemptOutcome) (j : Nat)
    (hj1 : 1 ≤ j) (hjm : j ≤ s.retry_max_attempts)
    (hpre : ∀ i, 1 ≤ i → i < j → ∃ st, up i = .response st ∧ 500 ≤ st)
    (hstop : stops s (up j) j) :
    sleepsOf (requestWithRetry s up).2 =
      (List.range' 1 (j - 1)).map
        (fun n => s.retry_backoff_seconds * 2 ^ (n - 1)) ∧
    ∀ n, 1 ≤ n → n < j →
      [RetryEvent.close n,
       RetryEvent.sleep (s.retry_backoff_seconds * 2 ^ (n - 1))] <:+:
        (requestWithRetry s up).2 := by
  have hrun := retryFrom_stops s up s.retry_max_attempts 1 j (by omega)
    hj1 hjm hpre hstop
  have h2 : (requestWithRetry s up).2 = retryTrace s 1 j := by
    unfold requestWithRetry
    rw [hrun]
  constructor
  · rw [h2, sleepsOf_retryTrace]
  · intro n hn1 hnj
    rw [h2]
    unfold retryTrace
    have hmem : n ∈ List.range' 1 (j - 1) := by
      rw [List.mem_range'_1]
      omega
    obtain ⟨u, v, huv⟩ := closeSleep_infix_flatMap s (j - 1) 1 n hmem
    refine ⟨u, v ++ [RetryEvent.request j], ?_⟩
    rw [← huv]
    simp [List.append_assoc]

theorem retry_backoff_and_close_before_sleep_witness :
    sleepsOf (requestWithRetry testSettings
      (fun i => .response (upTwo502 i))).2 = [1/2, 1] ∧
    [RetryEvent.close 2, RetryEvent.sleep 1] <:+:
      (requestWithRetry testSettings (fun i => .response (upTwo502 i))).2 := by
  have h := retry_backoff_and_close_before_sleep testSettings
    (fun i => .response (upTwo502 i)) 3 (by decide) (by decide)
    (by intro i hi hij
        refine ⟨502, ?_, by decide⟩
        show AttemptOutcome.response (upTwo502 i) = .response 502
        unfold upTwo502
        rw [if_neg (by omega : ¬ 3 ≤ i)])
    (Or.inl (by decide : upTwo502 3 < 500))
  have hq : (testSettings.retry_backoff_seconds * 2 ^ (2 - 1) : ℚ) = 1 := by
    norm_num [testSettings]
  constructor
  · refine h.1.trans ?_
    show List.map (fun n => testSettings.retry_backoff_seconds * 2 ^ (n - 1))
      [1, 2] = [1/2, 1]
    norm_num [testSettings]
  · have h2 := h.2 2 (by decide) (by decide)
    rw [hq] at h2
    exact h2

/-- C10: with retry_max_attempts >= 1 the retry loop always terminates by
returning a response or raising within the loop; the trailing
JiraError("Unexpected Jira retry state") branch after the loop is
unreachable. -/
theorem retry_trailing_raise_unreachable (s : Settings)
    (up : Nat → AttemptOutcome) (h1 : 1 ≤ s.retry_max_attempts) :
    (requestWithRetry s up).1 ≠ .unexpectedState := by
  have key : ∀ r a, a + r = s.retry_max_attempts + 1 →
      a ≤ s.retry_max_attempts →
      (retryFrom s up a r).1 ≠ .unexpectedState := by
    intro r
    induction r with
    | zero => intro a ha hb; omega
    | succ r ih =>
      intro a hsum ha
      cases hup : up a with
      | timeout => rw [retryFrom_timeout s up a r hup]; simp
      | netError => rw [retryFrom_netError s up a r hup]; simp
      | response st =>
        rw [retryFrom_response s up a r st hup]
        by_cases hc : st < 500 ∨ a = s.retry_max_attempts
        · rw [if_pos hc]; simp
        · rw [if_neg hc]
          have hne : a ≠ s.retry_max_attempts := by tauto
          exact ih (a + 1) (by omega) (by omega)
  exact key s.retry_max_attempts 1 (by omega) h1

theorem retry_trailing_raise_unreachable_witness :
    (requestWithRetry testSettings (fun _ => .response 503)).1 ≠
      .unexpectedState :=
  retry_trailing_raise_unreachable testSettings (fun _ => .response 503)
    (by decide)

/-- C3: a lookup hits iff caching is enabled, an entry exists for the key
and the elapsed monotonic time is strictly below the TTL; with caching
disabled every lookup misses and every store is a no-op; and after a
successful fetch stored at time now, a second fetch of the same key at
now2 within the TTL returns the cached document with zero upstream
requests, whatever the network would do. -/
theorem cache_ttl_hit_and_suppressed_refetch (s1 s2 s : Settings)
    (cache1 cache2 cache : CacheMap) (now1 now2pre now now2 : ℚ)
    (key1 key2 key : String) (doc1 doc2 doc : JVal)
    (fetch fetch2 : String → Except JiraFailure JVal)
    (hdis : s2.enable_response_cache = false)
    (henabled : s.enable_response_cache = true)
    (hn : pyUpper (pyStrip key) ≠ "")
    (hmiss : cacheGet s cache now (pyUpper (pyStrip key)) = none)
    (hfetch : fetch (pyUpper (pyStrip key)) = .ok doc)
    (httl : now2 - now < s.cache_ttl_seconds) :
    (cacheGet s1 cache1 now1 key1 = some doc1 ↔
      s1.enable_response_cache = true ∧
      ∃ t, cache1 key1 = some (t, doc1) ∧
        now1 - t < s1.cache_ttl_seconds) ∧
    (cacheGet s2 cache2 now2pre key2 = none ∧
      cachePut s2 cache2 now2pre key2 doc2 = cache2) ∧
    (getIssueRawCached s fetch cache now key =
      (.ok doc, cachePut s cache now (pyUpper (pyStrip key)) doc, 1) ∧
     getIssueRawCached s fetch2
        (cachePut s cache now (pyUpper (pyStrip key)) doc) now2 key =
      (.ok doc, cachePut s cache now (pyUpper (pyStrip key)) doc, 0)) := by
  refine ⟨?_, ⟨?_, ?_⟩, ?_, ?_⟩
  · unfold cacheGet
    by_cases he : s1.enable_response_cache
    · rw [if_pos he]
      cases hc : cache1 key1 with
      | none => simp [he, hc]
      | some entry =>
        dsimp only
        by_cases htt : now1 - entry.1 < s1.cache_ttl_seconds
        · rw [if_pos htt]
          constructor
          · intro hd
            refine ⟨he, entry.1, ?_, htt⟩
            cases entry
            simp at hd ⊢
            exact hd
          · intro ⟨_, t, hct, _⟩
            cases entry
            simp at hct ⊢
            exact hct.2
        · rw [if_neg htt]
          constructor
          · intro hd; cases hd
          · intro ⟨_, t, hct, hlt⟩
            cases entry
            simp at hct
            rw [hct.1] at htt
            exact absurd hlt htt
    · simp [he]
  · unfold cacheGet
    rw [hdis]
    simp
  · unfold cachePut
    rw [hdis]
    simp
  · unfold getIssueRawCached
    rw [if_neg hn, hmiss, hfetch]
  · unfold getIssueRawCached
    rw [if_neg hn]
    have hhit : cacheGet s (cachePut s cache now (pyUpper (pyStrip key)) doc)
        now2 (pyUpper (pyStrip key)) = some doc := by
      unfold cacheGet cachePut
      rw [henabled]
      simp [httl]
    rw [hhit]

theorem cache_ttl_hit_and_suppressed_refetch_witness :
    (cacheGet testSettingsNoCache emptyCache 0 "ABC-1" = none ∧
     cachePut testSettingsNoCache emptyCache 0 "ABC-1" docA = emptyCache) ∧
    (getIssueRawCached testSettings (fun _ => .ok docA) emptyCache 0
        " abc-1 " =
       (.ok docA,
        cachePut testSettings emptyCache 0 (pyUpper (pyStrip " abc-1 ")) docA,
        1) ∧
     getIssueRawCached testSettings (fun _ => .error .upstreamError)
        (cachePut testSettings emptyCache 0 (pyUpper (pyStrip " abc-1 ")) docA)
        100 " abc-1 " =
       (.ok docA,
        cachePut testSettings emptyCache 0 (pyUpper (pyStrip " abc-1 ")) docA,
        0)) := by
  have h := cache_ttl_hit_and_suppressed_refetch testSettings
    testSettingsNoCache testSettings emptyCache emptyCache emptyCache
    0 0 0 100 "ABC-1" "ABC-1" " abc-1 " docA docA docA
    (fun _ => .ok docA) (fun _ => .error .upstreamError)
    rfl rfl (by decide) rfl rfl (by norm_num [testSettings])
  exact ⟨h.2.1, h.2.2⟩

/-- C4: _get_issue_raw_cached normalizes the issue key (strip then upper)
before any cache lookup or network call, so calls whose keys normalize
equally behave identically (same cache entry, same result, same requests);
a key that is empty after normalization yields NotFound with zero network
calls and the cache untouched. -/
theorem fetch_normalizes_key (s : Settings)
    (fetch : String → Except JiraFailure JVal) (cache : CacheMap) (now : ℚ)
    (k1 k2 ke : String)
    (hnorm : pyUpper (pyStrip k1) = pyUpper (pyStrip k2))
    (hempty : pyUpper (pyStrip ke) = "") :
    getIssueRawCached s fetch cache now k1 =
      getIssueRawCached s fetch cache now k2 ∧
    getIssueRawCached s fetch cache now ke = (.error .notFound, cache, 0) := by
  constructor
  · unfold getIssueRawCached
    rw [hnorm]
  · unfold getIssueRawCached
    rw [hempty]
    simp

theorem fetch_normalizes_key_witness :
    getIssueRawCached testSettings (fun _ => .ok docA) emptyCache 0
      " abc-123" =
    getIssueRawCached testSettings (fun _ => .ok docA) emptyCache 0
      "ABC-123 " ∧
    getIssueRawCached testSettings (fun _ => .ok docA) emptyCache 0
      "   " = (.error .notFound, emptyCache, 0) :=
  fetch_normalizes_key testSettings (fun _ => .ok docA) emptyCache 0
    " abc-123" "ABC-123 " "   " (by decide) (by decide)

/-- C5: the Issue Fetcher classifies upstream responses: 404 -> NotFound;
401/403 -> Unauthorized carrying the original status; any other status
>= 400 -> the generic UpstreamError; a success-status body that fails to
parse -> UpstreamError; a success-status body that parses is returned;
and the failure kinds produced are pairwise distinct. -/
theorem issue_response_classification (status : Nat) (body : Option JVal)
    (payload : JVal) :
    (status = 404 → interpretIssueResponse status body = .error .notFound) ∧
    (status = 401 ∨ status = 403 →
      interpretIssueResponse status body = .error (.unauthorized status)) ∧
    (400 ≤ status → status ≠ 404 → status ≠ 401 → status ≠ 403 →
      interpretIssueResponse status body = .error .upstreamError) ∧
    (status < 400 → body = none →
      interpretIssueResponse status body = .error .upstreamError) ∧
    (status < 400 → body = some payload →
      interpretIssueResponse status body = .ok payload) ∧
    ((Except.error .notFound : Except JiraFailure JVal) ≠
       .error (.unauthorized status)) ∧
    ((Except.error (.unauthorized status) : Except JiraFailure JVal) ≠
       .error .upstreamError) ∧
    ((Except.error .notFound : Except JiraFailure JVal) ≠
       .error .upstreamError) := by
  refine ⟨?_, ?_, ?_, ?_, ?_, by simp, by simp, by simp⟩
  · intro h
    subst h
    rfl
  · intro h
    unfold interpretIssueResponse
    rcases h with h | h <;> subst h <;> rfl
  · intro h4 h404 h401 h403
    unfold interpretIssueResponse
    rw [if_neg h404, if_neg (by omega : ¬ (status = 401 ∨ status = 403)),
      if_pos h4]
  · intro h4 hb
    subst hb
    unfold interpretIssueResponse
    rw [if_neg (by omega), if_neg (by omega : ¬ (status = 401 ∨ status = 403)),
      if_neg (by omega)]
  · intro h4 hb
    subst hb
    unfold interpretIssueResponse
    rw [if_neg (by omega), if_neg (by omega : ¬ (status = 401 ∨ status = 403)),
      if_neg (by omega)]

theorem issue_response_classification_witness :
    interpretIssueResponse 404 (some docA) = .error .notFound ∧
    interpretIssueResponse 403 (some docA) = .error (.unauthorized 403) ∧
    interpretIssueResponse 500 (some docA) = .error .upstreamError ∧
    interpretIssueResponse 200 none = .error .upstreamError ∧
    interpretIssueResponse 200 (some docA) = .ok docA := by
  refine ⟨?_, ?_, ?_, ?_, ?_⟩
  · exact (issue_response_classification 404 (some docA) docA).1 rfl
  · exact (issue_response_classification 403 (some docA) docA).2.1
      (Or.inr rfl)
  · exact (issue_response_classification 500 (some docA) docA).2.2.1
      (by omega) (by omega) (by omega) (by omega)
  · exact (issue_response_classification 200 none docA).2.2.2.1
      (by omega) rfl
  · exact (issue_response_classification 200 (some docA) docA).2.2.2.2.1
      (by omega) rfl

theorem walkFields_eq_jGet (fields : List (String × JVal)) :
    walkFields fields =
      match jGet fields "content" with
      | some v => walkContentVal v
      | none => [] := by
  induction fields with
  | nil => rfl
  | cons p rest ih =>
    obtain ⟨k, v⟩ := p
    unfold walkFields jGet
    by_cases hk : k = "content"
    · rw [if_pos hk, if_pos hk]
    · rw [if_neg hk, if_neg hk, ih]

theorem dropWhile_head?_false {α : Type} (p : α → Bool) (l : List α) (c : α)
    (h : (l.dropWhile p).head? = some c) : p c = false := by
  induction l with
  | nil => simp [List.dropWhile] at h
  | cons a as ih =>
    rw [List.dropWhile_cons] at h
    by_cases hp : p a
    · rw [if_pos hp] at h
      exact ih h
    · rw [if_neg hp] at h
      simp at h
      rw [← h]
      exact Bool.eq_false_iff.mpr hp

theorem stripChars_getLast?_false (l : List Char) (c : Char)
    (h : (stripChars l).getLast? = some c) : c.isWhitespace = false := by
  unfold stripChars at h
  rw [List.getLast?_reverse] at h
  exact dropWhile_head?_false _ _ _ h

theorem stripChars_head?_false (l : List Char) (c : Char)
    (h : (stripChars l).head? = some c) : c.isWhitespace = false := by
  have hdec : l.dropWhile Char.isWhitespace =
      stripChars l ++
        ((l.dropWhile Char.isWhitespace).reverse.takeWhile
          Char.isWhitespace).reverse := by
    unfold stripChars
    conv_lhs => rw [← List.reverse_reverse (l.dropWhile Char.isWhitespace)]
    conv_lhs =>
      rw [← List.takeWhile_append_dropWhile Char.isWhitespace
        (l.dropWhile Char.isWhitespace).reverse]
    rw [List.reverse_append]
  have hh : (l.dropWhile Char.isWhitespace).head? = some c := by
    rw [hdec, List.head?_append, h]
    rfl
  exact dropWhile_head?_false _ _ _ hh

theorem stripChars_eq_self (l : List Char)
    (hh : ∀ c, l.head? = some c → c.isWhitespace = false)
    (hl : ∀ c, l.getLast? = some c → c.isWhitespace = false) :
    stripChars l = l := by
  unfold stripChars
  have h1 : l.dropWhile Char.isWhitespace = l := by
    cases l with
    | nil => rfl
    | cons a as =>
      rw [List.dropWhile_cons, hh a rfl]
      simp
  rw [h1]
  have h2 : l.reverse.dropWhile Char.isWhitespace = l.reverse := by
    cases hr : l.reverse with
    | nil => rfl
    | cons a as =>
      have ha : l.getLast? = some a := by
        rw [List.getLast?_eq_head?_reverse, hr]
        rfl
      rw [List.dropWhile_cons, hl a ha]
      simp
  rw [h2, List.reverse_reverse]

theorem intercalate_space_head (x : List Char) (xs : List (List Char))
    (hx : x ≠ []) :
    (List.intercalate [' '] (x :: xs)).head? = x.head? := by
  obtain ⟨a, as, rfl⟩ := List.exists_cons_of_ne_nil hx
  cases xs with
  | nil => rfl
  | cons b t => rfl

theorem intercalate_space_ne_nil (x : List Char) (xs : List (List Char))
    (hx : x ≠ []) : List.intercalate [' '] (x :: xs) ≠ [] := by
  intro hnil
  have hh := intercalate_space_head x xs hx
  rw [hnil] at hh
  obtain ⟨a, as, rfl⟩ := List.exists_cons_of_ne_nil hx
  simp at hh

theorem intercalate_space_getLast (cs : List (List Char)) :
    ∀ x, x ∈ cs → (∀ y ∈ cs, y ≠ []) →
    ∃ y ∈ cs, (List.intercalate [' '] cs).getLast? = y.getLast? := by
  induction cs with
  | nil => intro x hx; cases hx
  | cons a t ih =>
    intro x hx hall
    cases t with
    | nil =>
      refine ⟨a, List.mem_cons_self a [], ?_⟩
      show (a ++ []).getLast? = _
      rw [List.getLast?_append]
      rfl
    | cons b u =>
      have hb : b ∈ b :: u := List.mem_cons_self b u
      obtain ⟨y, hy, hyl⟩ := ih b hb
        (fun z hz => hall z (List.mem_cons_of_mem a hz))
      refine ⟨y, List.mem_cons_of_mem a hy, ?_⟩
      show (a ++ ([' '] ++ List.intercalate [' '] (b :: u))).getLast? = _
      rw [List.getLast?_append, List.getLast?_append]
      have hbu : List.intercalate [' '] (b :: u) ≠ [] :=
        intercalate_space_ne_nil b u (hall b (List.mem_cons_of_mem a hb))
      cases hg : (List.intercalate [' '] (b :: u)).getLast? with
      | none =>
        rw [List.getLast?_eq_none_iff] at hg
        exact absurd hg hbu
      | some d =>
        rw [hg] at hyl
        rw [← hyl]
        rfl

theorem String_data_eq_nil_iff (p : String) : p.data = [] ↔ p = "" := by
  constructor
  · intro h
    exact String.ext (h.trans rfl)
  · intro h
    rw [h]

theorem cleaned_fragments_eq (l : List String) :
    (l.filter (fun p => p != "" && pyStrip p != "")).map pyStrip =
      (l.map pyStrip).filter (fun p => p != "") := by
  rw [List.filter_map]
  congr 1
  apply List.filter_congr
  intro p hp
  show (p != "" && pyStrip p != "") = ((fun q => q != "") ∘ pyStrip) p
  show (p != "" && pyStrip p != "") = (pyStrip p != "")
  by_cases h : p = ""
  · subst h
    rfl
  · have h1 : (p != "") = true := bne_iff_ne.mpr h
    rw [h1, Bool.true_and]

theorem joinSpace_ne_empty (p : String) (ps : List String) (hp : p ≠ "") :
    joinSpace (p :: ps) ≠ "" := by
  intro h
  have hd : List.intercalate [' '] ((p :: ps).map String.data) = [] :=
    congrArg String.data h
  exact intercalate_space_ne_nil p.data (ps.map String.data)
    (fun he => hp ((String_data_eq_nil_iff p).mp he)) hd

theorem pyStrip_idem (p : String) : pyStrip (pyStrip p) = pyStrip p := by
  apply congrArg String.mk
  apply stripChars_eq_self
  · intro c hc
    exact stripChars_head?_false _ _ hc
  · intro c hc
    exact stripChars_getLast?_false _ _ hc

theorem pyStrip_joinSpace_stripped (parts : List String)
    (hall : ∀ p ∈ parts, p ≠ "" ∧ pyStrip p = p) :
    pyStrip (joinSpace parts) = joinSpace parts := by
  cases parts with
  | nil => rfl
  | cons p ps =>
    have hstrip : stripChars (List.intercalate [' ']
        ((p :: ps).map String.data)) =
        List.intercalate [' '] ((p :: ps).map String.data) := by
      apply stripChars_eq_self
      · intro c hc
        have hpne : p.data ≠ [] := fun hd =>
          (hall p (List.mem_cons_self p ps)).1 ((String_data_eq_nil_iff p).mp hd)
        rw [List.map_cons,
          intercalate_space_head p.data (ps.map String.data) hpne] at hc
        have hsp : stripChars p.data = p.data :=
          congrArg String.data (hall p (List.mem_cons_self p ps)).2
        rw [← hsp] at hc
        exact stripChars_head?_false _ _ hc
      · intro c hc
        obtain ⟨y, hy, hyl⟩ := intercalate_space_getLast
          ((p :: ps).map String.data) p.data (by simp)
          (fun z hz => by
            rw [List.mem_map] at hz
            obtain ⟨q, hq, rfl⟩ := hz
            exact fun hd => (hall q hq).1 ((String_data_eq_nil_iff q).mp hd))
        rw [hyl] at hc
        rw [List.mem_map] at hy
        obtain ⟨q, hq, rfl⟩ := hy
        have hsq : stripChars q.data = q.data :=
          congrArg String.data (hall q hq).2
        rw [← hsq] at hc
        exact stripChars_getLast?_false _ _ hc
    exact congrArg String.mk hstrip

theorem extract_adf_text_jobj (fl : List (String × JVal)) :
    extract_adf_text (.jobj fl) =
      (if ((adfFragments fl).map pyStrip).filter (fun p => p != "") = []
       then none
       else some (joinSpace
         (((adfFragments fl).map pyStrip).filter (fun p => p != "")))) := by
  have hE : extract_adf_text (.jobj fl) =
      (if pyStrip (joinSpace
          (((adfFragments fl).map pyStrip).filter (fun p => p != ""))) = ""
       then none
       else some (pyStrip (joinSpace
          (((adfFragments fl).map pyStrip).filter (fun p => p != ""))))) := by
    show (if pyStrip (joinSpace (((adfFragments fl).filter
        (fun p => p != "" && pyStrip p != "")).map pyStrip)) = "" then none
      else some (pyStrip (joinSpace (((adfFragments fl).filter
        (fun p => p != "" && pyStrip p != "")).map pyStrip)))) = _
    rw [cleaned_fragments_eq]
  have hprops : ∀ q ∈ ((adfFragments fl).map pyStrip).filter
      (fun p => p != ""), q ≠ "" ∧ pyStrip q = q := by
    intro q hq
    rw [List.mem_filter] at hq
    obtain ⟨hmem, hne⟩ := hq
    rw [List.mem_map] at hmem
    obtain ⟨r, hr, rfl⟩ := hmem
    exact ⟨bne_iff_ne.mp hne, pyStrip_idem r⟩
  by_cases hnil : ((adfFragments fl).map pyStrip).filter
      (fun p => p != "") = []
  · rw [hE, hnil]
    have h0 : pyStrip (joinSpace ([] : List String)) = "" := rfl
    rw [h0]
    simp
  · obtain ⟨q, rest, hqr⟩ := List.exists_cons_of_ne_nil hnil
    have hq := hprops q (hqr ▸ List.mem_cons_self q rest)
    have hne2 : joinSpace (((adfFragments fl).map pyStrip).filter
        (fun p => p != "")) ≠ "" := by
      rw [hqr]
      exact joinSpace_ne_empty q rest hq.1
    rw [hE, pyStrip_joinSpace_stripped _ hprops, if_neg hne2, if_neg hnil]

/-- C6: the Text Extractor returns a bare string input unchanged; the
example tree content:[text "a", content:[text "b"]] produces "a b"; a
tree whose fragments are all whitespace (in particular one with no text)
is reported as absent; and in general a dict input yields the walked
fragments individually stripped, with falsy and whitespace-only fragments
dropped, joined by single spaces, or absent when nothing remains. -/
theorem adf_text_extractor (s0 : String)
    (fields fieldsB : List (String × JVal))
    (hws : ∀ p ∈ adfFragments fieldsB, pyStrip p = "") :
    extract_adf_text (.jstr s0) = some s0 ∧
    extract_adf_text adfExampleTree = some "a b" ∧
    extract_adf_text (.jobj fieldsB) = none ∧
    extract_adf_text (.jobj fields) =
      (if ((adfFragments fields).map pyStrip).filter (fun p => p != "") = []
       then none
       else some (joinSpace
         (((adfFragments fields).map pyStrip).filter (fun p => p != "")))) := by
  refine ⟨rfl, by decide, ?_, extract_adf_text_jobj fields⟩
  rw [extract_adf_text_jobj fieldsB]
  have hnil : ((adfFragments fieldsB).map pyStrip).filter
      (fun p => p != "") = [] := by
    rw [List.filter_eq_nil_iff]
    intro a ha
    rw [List.mem_map] at ha
    obtain ⟨q, hq, rfl⟩ := ha
    rw [hws q hq]
    simp
  rw [if_pos hnil]

theorem adf_text_extractor_witness :
    extract_adf_text (.jstr "hello") = some "hello" ∧
    extract_adf_text adfExampleTree = some "a b" ∧
    extract_adf_text (.jobj wsOnlyFields) = none := by
  have h := adf_text_extractor "hello" wsOnlyFields wsOnlyFields (by decide)
  exact ⟨h.1, h.2.1, h.2.2.1⟩

/-- C7: for every upstream chunk sequence (with or without a mid-read
error) and every consumption pattern (drain to exhaustion or stop after
any number of chunks), the iterator releases the network connection
exactly once, and that release is the final event. -/
theorem stream_releases_connection_once (source : List ReadStep)
    (limit : Option Nat) :
    ((runStream source limit).filter
      (fun e => e == StreamEvent.connClosed)).length = 1 ∧
    (runStream source limit).getLast? = some .connClosed := by
  induction source generalizing limit with
  | nil =>
    cases limit with
    | none => exact ⟨rfl, rfl⟩
    | some n => cases n <;> exact ⟨rfl, rfl⟩
  | cons step rest ih =>
    cases limit with
    | none =>
      cases step with
      | readErr => exact ⟨rfl, rfl⟩
      | chunk d =>
        show ((if d = [] then runStream rest none
            else .yielded d :: runStream rest none).filter _).length = 1 ∧
          (if d = [] then runStream rest none
            else .yielded d :: runStream rest none).getLast? = _
        by_cases hd : d = []
        · rw [if_pos hd]
          exact ih none
        · rw [if_neg hd]
          obtain ⟨h1, h2⟩ := ih none
          refine ⟨by rw [List.filter_cons]; simp [h1], ?_⟩
          rw [List.getLast?_cons, h2]
          have : runStream rest none ≠ [] := by
            intro hn
            rw [hn] at h2
            cases h2
          cases hr : runStream rest none with
          | nil => exact absurd hr this
          | cons e es => rfl
    | some n =>
      cases n with
      | zero => cases step <;> exact ⟨rfl, rfl⟩
      | succ m =>
        cases step with
        | readErr => exact ⟨rfl, rfl⟩
        | chunk d =>
          show ((if d = [] then runStream rest (some (m + 1))
              else .yielded d :: runStream rest (some m)).filter _).length
              = 1 ∧
            (if d = [] then runStream rest (some (m + 1))
              else .yielded d :: runStream rest (some m)).getLast? = _
          by_cases hd : d = []
          · rw [if_pos hd]
            exact ih (some (m + 1))
          · rw [if_neg hd]
            obtain ⟨h1, h2⟩ := ih (some m)
            refine ⟨by rw [List.filter_cons]; simp [h1], ?_⟩
            rw [List.getLast?_cons, h2]
            have : runStream rest (some m) ≠ [] := by
              intro hn
              rw [hn] at h2
              cases h2
            cases hr : runStream rest (some m) with
            | nil => exact absurd hr this
            | cons e es => rfl

/-- C9: a derived attachment descriptor carries a proxy download path iff
the raw entry carries a (truthy) identifier; a carried id idv yields the
path /jira/{issue_key}/attachments/{idv}; an absent id yields no path;
and _extract_attachments derives exactly one descriptor per raw entry. -/
theorem attachment_proxy_url (issue_key : String)
    (a : List (String × JVal)) (idv : JVal)
    (fields : List (String × JVal)) (items : List JVal)
    (hatt : jGet fields "attachment" = some (.jarr items)) :
    ((attachmentDescriptor issue_key (.jobj a)).download_url.isSome = true ↔
      ∃ w, jGet a "id" = some w ∧ jTruthy w = true) ∧
    (jGet a "id" = some idv → jTruthy idv = true →
      (attachmentDescriptor issue_key (.jobj a)).download_url =
        some ("/jira/" ++ issue_key ++ "/attachments/" ++ pyStr idv)) ∧
    (jGet a "id" = none →
      (attachmentDescriptor issue_key (.jobj a)).download_url = none) ∧
    extract_attachments fields issue_key =
      items.map (attachmentDescriptor issue_key) := by
  have hgoal : (attachmentDescriptor issue_key (.jobj a)).download_url =
      (match jGet a "id" with
       | some w =>
         if jTruthy w = true then
           some ("/jira/" ++ issue_key ++ "/attachments/" ++ pyStr w)
         else none
       | none => none) := rfl
  refine ⟨?_, ?_, ?_, ?_⟩
  · rw [hgoal]
    cases hid : jGet a "id" with
    | none => simp
    | some w =>
      by_cases ht : jTruthy w = true
      · simp [ht]
      · have ht2 : jTruthy w = false := by
          cases hb : jTruthy w
          · rfl
          · exact absurd hb ht
        simp [ht2]
  · intro hid htr
    rw [hgoal, hid]
    dsimp only
    rw [htr]
    rfl
  · intro hid
    rw [hgoal, hid]
  · unfold extract_attachments
    rw [hatt]

theorem attachment_proxy_url_witness :
    (attachmentDescriptor "ABC-123" (.jobj testAttachment)).download_url =
      some "/jira/ABC-123/attachments/10001" ∧
    (attachmentDescriptor "ABC-123"
      (.jobj [("filename", .jstr "noid.txt")])).download_url = none := by
  have h := attachment_proxy_url "ABC-123" testAttachment (.jstr "10001")
    [("attachment", .jarr [.jobj testAttachment])] [.jobj testAttachment] rfl
  have h2 := attachment_proxy_url "ABC-123" [("filename", .jstr "noid.txt")]
    (.jstr "10001") [("attachment", .jarr [])] [] rfl
  exact ⟨h.2.1 rfl rfl, h2.2.2.1 rfl⟩
